import Mathlib

/-
  Verification of the UDisks2 storage plugin of MPD
  (src/storage/plugins/UdisksStorage.cxx).

  The plugin is an event-driven mount-on-demand state machine.  Its
  mutable fields (`dbus_path`, `want_mount`, `mounted_storage`,
  `mount_error`), its two deferred events (`defer_mount`,
  `defer_unmount`) and the in-flight D-Bus request are embedded as a
  `Config`; every code path that runs under the object's mutex becomes
  one `Event`, and `applyEvent` is the verbatim translation of the
  corresponding C++ handler.  `Reachable` closes the initial
  configuration under enabled events; the safety claims are proved by
  an inductive invariant `Inv`.
-/

namespace Udisks

/-- Error values that the state machine can record in `mount_error`
(the C++ field is a `std::exception_ptr`; each constructor corresponds
to one `throw` site or caught failure). -/
inductive Err where
  | noSuchObject (id : String)
  | dbusError (msg : String)
  | malformedMountReply
  | sendFailure
  | nullDelegate
deriving DecidableEq, Repr

/-- Abstract carrier for the `StorageFileInfo` results returned by the
delegate storage. -/
structure StorageFileInfo where
  kind : Nat
  size : Nat
  mtime : Nat
deriving DecidableEq, Repr

/-- Abstract handle standing for a `StorageDirectoryReader`. -/
structure DirectoryReaderHandle where
  token : Nat
deriving DecidableEq, Repr

/-- Behaviour of the delegate `Storage` produced by
`CreateLocalStorage` (external collaborator): one abstract function per
forwarded virtual method. -/
structure DelegateStorage where
  getInfo : String → Bool → Except Err StorageFileInfo
  openDirectory : String → Except Err DirectoryReaderHandle
  mapFS : String → Option String
  mapUTF8 : String → String

/-- Modelled from the spec: the UDisks2 object-manager code
(lib/dbus/UDisks2.cxx, not under src/) yields enumerated objects "each
exposing an identifier and filesystem-interface capability"; `IsId`
compares that identifier against the Volume Reference. -/
structure UObject where
  oid : String
  path : String
deriving DecidableEq, Repr

/-- Possible shapes of the D-Bus reply to the "Mount" call, as
`OnMountNotify` distinguishes them: an error reply (rejected by
`CheckThrowError`), a first argument that is not a string, or the
mount-point string. -/
inductive MountReply where
  | err (msg : String)
  | other
  | str (mount_path : String)
deriving DecidableEq, Repr

/-- Outbound IPC requests, recorded in an append-only log. -/
inductive Request where
  | getManagedObjects
  | mount (objectPath : String) (options : List (String × String))
  | unmount (objectPath : String) (options : List (String × String))
deriving DecidableEq, Repr

/-- Kind of the (at most one) in-flight request. -/
inductive ReqKind where
  | list
  | mount
  | unmount
deriving DecidableEq, Repr

def reqKind : Request → ReqKind
  | .getManagedObjects => .list
  | .mount _ _ => .mount
  | .unmount _ _ => .unmount

/-- Construction-time parameters: the Volume Reference `id` and the
external `CreateLocalStorage` factory building a delegate from a
mount-point path. -/
structure Params where
  id : String
  mkLocal : String → DelegateStorage

/-- The mutex-protected fields of `UdisksStorage`. -/
structure UState where
  dbus_path : String
  want_mount : Bool
  mounted_storage : Option DelegateStorage
  mount_error : Option Err

/-- A whole configuration: protected fields, the two `DeferEvent`
slots, the in-flight request and the log of every request ever sent. -/
structure Config where
  st : UState
  defer_mount : Bool
  defer_unmount : Bool
  pending : Option ReqKind
  log : List Request

/-- The four lifecycle states named by the specification. -/
inductive LState where
  | Idle
  | MountPending
  | Mounted
  | UnmountPending
deriving DecidableEq, Repr

/-- The shared failure epilogue of `OnListReply`, `DeferredMount` and
`OnMountNotify`: record the error, clear the mount request flag (and
`cond.broadcast()`, which the embedding models by the state change
alone). -/
def mountAttemptFail (s : UState) (e : Err) : UState :=
  { s with mount_error := some e, want_mount := false }

/-- Embeds `UdisksStorage::DeferredMount`: with an empty `dbus_path` send
"GetManagedObjects", otherwise send "Mount" on the resolved path with
an empty options array. -/
def deferredMountSend (s : UState) : Request :=
  if s.dbus_path = "" then Request.getManagedObjects
  else Request.mount s.dbus_path []

/-- The scan loop of `OnListReply`: every enumerated object whose
identifier matches the Volume Reference overwrites `dbus_path`. -/
def listScan (id : String) (dbus_path : String) (objs : List UObject) : String :=
  objs.foldl (fun p o => if o.oid = id then o.path else p) dbus_path

/-- Embeds `UdisksStorage::OnListReply`: on parse failure record the error; on
success scan for the Volume Reference, fail with "No such UDisks2
object" if `dbus_path` stays empty, otherwise tail-call
`DeferredMount` (whose `Send` may itself throw, `sendOk = false`).
Returns the new state and the request sent, if any. -/
def OnListReply (P : Params) (s : UState) (reply : Except Err (List UObject))
    (sendOk : Bool) : UState × Option Request :=
  match reply with
  | .error e => (mountAttemptFail s e, none)
  | .ok objs =>
    let path := listScan P.id s.dbus_path objs
    let s1 : UState := { s with dbus_path := path }
    if path = "" then (mountAttemptFail s1 (Err.noSuchObject P.id), none)
    else if sendOk then (s1, some (deferredMountSend s1))
    else (mountAttemptFail s1 Err.sendFailure, none)

/-- Embeds `UdisksStorage::OnMountNotify`: on an error or malformed reply
record the failure; on a string reply install the delegate built by
`CreateLocalStorage`, clear `mount_error`, clear `want_mount`. -/
def OnMountNotify (P : Params) (s : UState) (reply : MountReply) : UState :=
  match reply with
  | .err msg => mountAttemptFail s (Err.dbusError msg)
  | .other => mountAttemptFail s Err.malformedMountReply
  | .str mount_path =>
    { s with mounted_storage := some (P.mkLocal mount_path),
             mount_error := none, want_mount := false }

/-- Embeds `UdisksStorage::OnUnmountNotify`: destroy the delegate handle
unconditionally; clear `mount_error` on success, record it on
failure. -/
def OnUnmountNotify (s : UState) (reply : Option Err) : UState :=
  match reply with
  | none => { s with mount_error := none, mounted_storage := none }
  | some e => { s with mount_error := some e, mounted_storage := none }

/-- The mutex-protected code paths of the plugin.  Reply events carry
the environment's choice of reply; `sendOk = false` models
`AsyncRequest::Send` throwing (the `catch` blocks of `DeferredMount` /
`DeferredUnmount`). -/
inductive Event where
  | mountWaitEnter
  | runDeferMount (sendOk : Bool)
  | listReply (r : Except Err (List UObject)) (sendOk : Bool)
  | mountReply (r : MountReply)
  | unmountWaitEnter
  | runDeferUnmount (sendOk : Bool)
  | unmountReply (r : Option Err)

/-- One transition of the state machine; the verbatim translation of
the handler bodies in UdisksStorage.cxx. -/
def applyEvent (P : Params) (c : Config) : Event → Config
  | .mountWaitEnter =>
    -- MountWait, before blocking: early return when mounted, schedule
    -- the deferred mount when not already requested.
    if c.st.mounted_storage.isSome then c
    else if c.st.want_mount then c
    else { c with st := { c.st with want_mount := true }, defer_mount := true }
  | .runDeferMount sendOk =>
    -- the DeferEvent fires and runs DeferredMount
    if sendOk then
      let r := deferredMountSend c.st
      { c with defer_mount := false, pending := some (reqKind r),
               log := c.log ++ [r] }
    else
      { c with defer_mount := false,
               st := mountAttemptFail c.st Err.sendFailure }
  | .listReply r sendOk =>
    let res := OnListReply P c.st r sendOk
    { c with st := res.1, pending := res.2.map reqKind,
             log := c.log ++ res.2.toList }
  | .mountReply r =>
    { c with st := OnMountNotify P c.st r, pending := none }
  | .unmountWaitEnter =>
    -- UnmountWait, before blocking: early return when not mounted,
    -- otherwise schedule the deferred unmount.
    if c.st.mounted_storage.isSome then { c with defer_unmount := true }
    else c
  | .runDeferUnmount sendOk =>
    -- the DeferEvent fires and runs DeferredUnmount
    if sendOk then
      { c with defer_unmount := false, pending := some ReqKind.unmount,
               log := c.log ++ [Request.unmount c.st.dbus_path []] }
    else
      { c with defer_unmount := false,
               st := { c.st with mount_error := some Err.sendFailure,
                                 mounted_storage := none } }
  | .unmountReply r =>
    { c with st := OnUnmountNotify c.st r, pending := none }

/-- Guards: a deferred callback fires only when scheduled, a reply
arrives only for an in-flight request of its kind.  `UnmountWait` has a
single caller (the destructor) and blocks until the unmount completed,
so a new call never overlaps an unmount already in progress. -/
def enabled (c : Config) : Event → Prop
  | .mountWaitEnter => True
  | .runDeferMount _ => c.defer_mount = true
  | .listReply _ _ => c.pending = some ReqKind.list
  | .mountReply _ => c.pending = some ReqKind.mount
  | .unmountWaitEnter => c.defer_unmount = false ∧ c.pending ≠ some ReqKind.unmount
  | .runDeferUnmount _ => c.defer_unmount = true
  | .unmountReply _ => c.pending = some ReqKind.unmount

/-- The freshly constructed object: nothing resolved, nothing mounted,
no error, nothing scheduled or in flight. -/
def initConfig : Config :=
  { st := { dbus_path := "", want_mount := false,
            mounted_storage := none, mount_error := none },
    defer_mount := false, defer_unmount := false,
    pending := none, log := [] }

/-- Configurations reachable from construction under enabled events. -/
inductive Reachable (P : Params) : Config → Prop where
  | init : Reachable P initConfig
  | step {c : Config} (e : Event) : Reachable P c → enabled c e →
      Reachable P (applyEvent P c e)

/-- An unmount has been scheduled or is in flight. -/
def unmountInProgress (c : Config) : Bool :=
  c.defer_unmount || c.pending = some ReqKind.unmount

/-- The lifecycle state of the specification, derived from the
configuration: the code keeps no explicit state tag. -/
def lifecycle (c : Config) : LState :=
  if unmountInProgress c then LState.UnmountPending
  else if c.st.mounted_storage.isSome then LState.Mounted
  else if c.st.want_mount then LState.MountPending
  else LState.Idle

/-- The value `MountWait` delivers at a return point: when already
mounted it returns at once (without consulting `mount_error`);
otherwise it has waited until `want_mount` went false and rethrows
`mount_error` when set. -/
def mountWaitReturn (c : Config) : Except Err Unit :=
  if c.st.mounted_storage.isSome then Except.ok ()
  else
    match c.st.mount_error with
    | some e => Except.error e
    | none => Except.ok ()

/-- The rethrow `UnmountWait` performs once its wait loop exits
(`mounted_storage` gone): raise `mount_error` when set. -/
def unmountWaitReturn (c : Config) : Except Err Unit :=
  match c.st.mount_error with
  | some e => Except.error e
  | none => Except.ok ()

/-- Embeds `UdisksStorage::GetInfo`, evaluated at the configuration at which
its inner `MountWait` call returned: a raised error propagates,
otherwise the call forwards to `mounted_storage`.  The `nullDelegate`
branch marks the C++ dereference of a null `mounted_storage`,
unreachable at `MountWait` return points. -/
def GetInfo (c : Config) (uri : String) (follow : Bool) :
    Except Err StorageFileInfo :=
  match mountWaitReturn c with
  | .error e => .error e
  | .ok _ =>
    match c.st.mounted_storage with
    | some d => d.getInfo uri follow
    | none => .error Err.nullDelegate

/-- Embeds `UdisksStorage::OpenDirectory`, evaluated at the configuration at
which its inner `MountWait` call returned. -/
def OpenDirectory (c : Config) (uri : String) :
    Except Err DirectoryReaderHandle :=
  match mountWaitReturn c with
  | .error e => .error e
  | .ok _ =>
    match c.st.mounted_storage with
    | some d => d.openDirectory uri
    | none => .error Err.nullDelegate

/-- Embeds `UdisksStorage::MapFS`: any error raised by `MountWait` is caught
and turned into a null path; otherwise the call forwards to
`mounted_storage`. -/
def MapFS (c : Config) (uri : String) : Option String :=
  match mountWaitReturn c with
  | .error _ => none
  | .ok _ =>
    match c.st.mounted_storage with
    | some d => d.mapFS uri
    | none => none

/-- Embeds `UdisksStorage::MapUTF8`: on any error raised by `MountWait` it
falls back to the base URI itself (empty input) or to
`PathTraitsUTF8::Build(base_uri, uri)`; `build` abstracts that
external path-joining helper (fs/Traits, outside this plugin). -/
def MapUTF8 (build : String → String → String) (base_uri : String)
    (c : Config) (uri : String) : String :=
  match mountWaitReturn c with
  | .ok _ =>
    match c.st.mounted_storage with
    | some d => d.mapUTF8 uri
    | none => ""
  | .error _ =>
    if uri = "" then base_uri
    else build base_uri uri

/-- The identity of the object built by `CreateUdisksStorageURI`: the
constructor arguments of `UdisksStorage` (the event loop aside). -/
structure UdisksStorageSpec where
  base_uri : List Char
  id : List Char
deriving DecidableEq, Repr

/-- The scheme the factory strips: "udisks://". -/
def udisksScheme : List Char := ['u', 'd', 'i', 's', 'k', 's', ':', '/', '/']

/-- The character class `strchr(_, '/')` splits on. -/
def notSlash : Char → Bool := fun ch => ch ≠ '/'

/-- Embeds `CreateUdisksStorageURI` (C strings as character lists): reject a
base URI that does not start with the scheme; otherwise the volume id
is everything after the scheme up to the first '/', and the full base
URI is stored in the object unchanged. -/
def CreateUdisksStorageURI (base_uri : List Char) : Option UdisksStorageSpec :=
  if base_uri.take 9 = udisksScheme then
    let id_begin := base_uri.drop 9
    some { base_uri := base_uri, id := id_begin.takeWhile notSlash }
  else none

/-- Iterates `n` successive `MountWait` entries. -/
def iterEnter (P : Params) (c : Config) : Nat → Config
  | 0 => c
  | n + 1 => applyEvent P (iterEnter P c n) Event.mountWaitEnter

/-- A concrete delegate factory, standing in for `CreateLocalStorage`
in the concrete scenarios below. -/
def exLocal (root : String) : DelegateStorage :=
  { getInfo := fun _ _ => Except.ok { kind := 1, size := 42, mtime := 7 },
    openDirectory := fun _ => Except.ok { token := 3 },
    mapFS := fun uri => some (root ++ "/" ++ uri),
    mapUTF8 := fun uri => root ++ "/" ++ uri }

/-- Concrete construction parameters for the scenarios: volume id
"abc". -/
def Pex : Params := { id := "abc", mkLocal := exLocal }

/-- Scenario step 1: a first storage operation enters `MountWait`. -/
def cA : Config := applyEvent Pex initConfig Event.mountWaitEnter

/-- Scenario step 2: the deferred mount runs and sends
"GetManagedObjects". -/
def cB : Config := applyEvent Pex cA (Event.runDeferMount true)

/-- Scenario step 3: the enumeration reply lists a matching object at
path "/obj"; the mount request is sent. -/
def cC : Config :=
  applyEvent Pex cB
    (Event.listReply (Except.ok [{ oid := "abc", path := "/obj" }]) true)

/-- Scenario step 4: the mount reply delivers mount point "/mnt"; the
delegate is installed. -/
def cD : Config := applyEvent Pex cC (Event.mountReply (MountReply.str "/mnt"))

/-- Scenario step 5: `UnmountWait` schedules the deferred unmount. -/
def cE : Config := applyEvent Pex cD Event.unmountWaitEnter

/-- Failure scenario: after step 2, the enumeration reply is a D-Bus
error. -/
def cF : Config :=
  applyEvent Pex cB (Event.listReply (Except.error (Err.dbusError "fail")) true)

/-- Scenario step 6: the deferred unmount runs and sends "Unmount". -/
def cG : Config := applyEvent Pex cE (Event.runDeferUnmount true)

/-- Scenario step 7: the unmount reply reports success; the delegate is
destroyed. -/
def cH : Config := applyEvent Pex cG (Event.unmountReply none)

/-- Scenario step 8: a later storage operation re-enters `MountWait`. -/
def cI : Config := applyEvent Pex cH Event.mountWaitEnter

/-- Scenario step 9: the deferred mount runs again; with `dbus_path`
cached it sends "Mount" directly. -/
def cJ : Config := applyEvent Pex cI (Event.runDeferMount true)

/-- The inductive invariant of the state machine.  Each field ties one
flag to the shape of the mutex-protected state; together they order the
mount and unmount phases. -/
structure Inv (c : Config) : Prop where
  err_unmounted : c.st.mount_error.isSome = true → c.st.mounted_storage = none
  want_unmounted : c.st.want_mount = true → c.st.mounted_storage = none
  defer_mount_inv : c.defer_mount = true →
      c.st.want_mount = true ∧ c.st.mounted_storage = none ∧
      c.pending = none ∧ c.defer_unmount = false
  pending_list_inv : c.pending = some ReqKind.list →
      c.st.want_mount = true ∧ c.st.mounted_storage = none ∧
      c.st.dbus_path = "" ∧ c.defer_mount = false ∧ c.defer_unmount = false
  pending_mount_inv : c.pending = some ReqKind.mount →
      c.st.want_mount = true ∧ c.st.mounted_storage = none ∧
      c.st.dbus_path ≠ "" ∧ c.defer_mount = false ∧ c.defer_unmount = false
  pending_unmount_inv : c.pending = some ReqKind.unmount →
      c.st.mounted_storage.isSome = true ∧ c.st.want_mount = false ∧
      c.defer_mount = false ∧ c.defer_unmount = false
  defer_unmount_inv : c.defer_unmount = true →
      c.st.mounted_storage.isSome = true ∧ c.st.want_mount = false ∧
      c.pending = none ∧ c.defer_mount = false

theorem inv_init : Inv initConfig := by
  refine ⟨?_, ?_, ?_, ?_, ?_, ?_, ?_⟩ <;> simp [initConfig]

theorem inv_step (P : Params) (c : Config) (e : Event)
    (h : Inv c) (he : enabled c e) : Inv (applyEvent P c e) := by
  obtain ⟨h1, h2, h3, h4, h5, h6, h7⟩ := h
  cases e with
  | mountWaitEnter =>
    simp only [applyEvent]
    split
    · exact ⟨h1, h2, h3, h4, h5, h6, h7⟩
    · rename_i hm
      split
      · exact ⟨h1, h2, h3, h4, h5, h6, h7⟩
      · rename_i hw
        simp only [Bool.not_eq_true] at hw
        have hm : c.st.mounted_storage = none := by
          cases hmo : c.st.mounted_storage with
          | none => rfl
          | some d => rw [hmo] at hm; simp at hm
        have hpn : c.pending = none := by
          cases hp : c.pending with
          | none => rfl
          | some k =>
            cases k with
            | list => rw [hw] at h4; simpa using (h4 hp).1
            | mount => rw [hw] at h5; simpa using (h5 hp).1
            | unmount => rw [hm] at h6; simpa using (h6 hp).1
        have hdu : c.defer_unmount = false := by
          cases hdu : c.defer_unmount with
          | false => rfl
          | true => rw [hm] at h7; simpa using (h7 hdu).1
        refine ⟨?_, ?_, ?_, ?_, ?_, ?_, ?_⟩ <;>
          simp_all [hm, hpn, hdu]
  | runDeferMount sendOk =>
    obtain ⟨hw, hm, hpn, hdu⟩ := h3 he
    simp only [applyEvent]
    split
    · simp only [deferredMountSend]
      split
      · rename_i hdb
        refine ⟨?_, ?_, ?_, ?_, ?_, ?_, ?_⟩ <;>
          simp_all [reqKind]
      · rename_i hdb
        refine ⟨?_, ?_, ?_, ?_, ?_, ?_, ?_⟩ <;>
          simp_all [reqKind]
    · refine ⟨?_, ?_, ?_, ?_, ?_, ?_, ?_⟩ <;>
        simp_all [mountAttemptFail]
  | listReply r sendOk =>
    obtain ⟨hw, hm, hdb, hdm, hdu⟩ := h4 he
    cases r with
    | error e0 =>
      simp only [applyEvent, OnListReply]
      refine ⟨?_, ?_, ?_, ?_, ?_, ?_, ?_⟩ <;>
        simp_all [mountAttemptFail]
    | ok objs =>
      simp only [applyEvent, OnListReply]
      split
      · rename_i hpath
        refine ⟨?_, ?_, ?_, ?_, ?_, ?_, ?_⟩ <;>
          simp_all [mountAttemptFail]
      · rename_i hpath
        split
        · simp only [deferredMountSend]
          split
          · rename_i hpath2
            exact absurd (by simpa using hpath2) hpath
          · refine ⟨?_, ?_, ?_, ?_, ?_, ?_, ?_⟩ <;>
              simp_all [reqKind]
        · refine ⟨?_, ?_, ?_, ?_, ?_, ?_, ?_⟩ <;>
            simp_all [mountAttemptFail]
  | mountReply r =>
    obtain ⟨hw, hm, hdb, hdm, hdu⟩ := h5 he
    cases r with
    | err msg =>
      simp only [applyEvent, OnMountNotify]
      refine ⟨?_, ?_, ?_, ?_, ?_, ?_, ?_⟩ <;>
        simp_all [mountAttemptFail]
    | other =>
      simp only [applyEvent, OnMountNotify]
      refine ⟨?_, ?_, ?_, ?_, ?_, ?_, ?_⟩ <;>
        simp_all [mountAttemptFail]
    | str p =>
      simp only [applyEvent, OnMountNotify]
      refine ⟨?_, ?_, ?_, ?_, ?_, ?_, ?_⟩ <;>
        simp_all
  | unmountWaitEnter =>
    obtain ⟨hdu, hpu⟩ := he
    simp only [applyEvent]
    split
    · rename_i hm
      have hw : c.st.want_mount = false := by
        cases hw : c.st.want_mount with
        | false => rfl
        | true => rw [h2 hw] at hm; simp at hm
      have hdm : c.defer_mount = false := by
        cases hdm : c.defer_mount with
        | false => rfl
        | true => rw [(h3 hdm).2.1] at hm; simp at hm
      have hpn : c.pending = none := by
        cases hp : c.pending with
        | none => rfl
        | some k =>
          cases k with
          | list => rw [(h4 hp).2.1] at hm; simp at hm
          | mount => rw [(h5 hp).2.1] at hm; simp at hm
          | unmount => exact absurd hp hpu
      refine ⟨?_, ?_, ?_, ?_, ?_, ?_, ?_⟩ <;>
        simp_all
    · exact ⟨h1, h2, h3, h4, h5, h6, h7⟩
  | runDeferUnmount sendOk =>
    obtain ⟨hm, hw, hpn, hdm⟩ := h7 he
    simp only [applyEvent]
    split
    · refine ⟨?_, ?_, ?_, ?_, ?_, ?_, ?_⟩ <;>
        simp_all
    · refine ⟨?_, ?_, ?_, ?_, ?_, ?_, ?_⟩ <;>
        simp_all
  | unmountReply r =>
    obtain ⟨hm, hw, hdm, hdu⟩ := h6 he
    cases r with
    | none =>
      simp only [applyEvent, OnUnmountNotify]
      refine ⟨?_, ?_, ?_, ?_, ?_, ?_, ?_⟩ <;>
        simp_all
    | some e0 =>
      simp only [applyEvent, OnUnmountNotify]
      refine ⟨?_, ?_, ?_, ?_, ?_, ?_, ?_⟩ <;>
        simp_all

/-- Every reachable configuration satisfies the invariant. -/
theorem inv_reachable (P : Params) (c : Config) (h : Reachable P c) :
    Inv c := by
  induction h with
  | init => exact inv_init
  | step e _ he ih => exact inv_step P _ e ih he

theorem reach_cA : Reachable Pex cA :=
  Reachable.step Event.mountWaitEnter Reachable.init trivial

theorem reach_cB : Reachable Pex cB :=
  Reachable.step (Event.runDeferMount true) reach_cA
    (by decide : cA.defer_mount = true)

theorem reach_cC : Reachable Pex cC :=
  Reachable.step _ reach_cB (by decide : cB.pending = some ReqKind.list)

theorem reach_cD : Reachable Pex cD :=
  Reachable.step _ reach_cC (by decide : cC.pending = some ReqKind.mount)

theorem reach_cE : Reachable Pex cE :=
  Reachable.step _ reach_cD
    (by decide : cD.defer_unmount = false ∧ cD.pending ≠ some ReqKind.unmount)

theorem reach_cF : Reachable Pex cF :=
  Reachable.step _ reach_cB (by decide : cB.pending = some ReqKind.list)

theorem reach_cG : Reachable Pex cG :=
  Reachable.step _ reach_cE (by decide : cE.defer_unmount = true)

theorem reach_cH : Reachable Pex cH :=
  Reachable.step _ reach_cG (by decide : cG.pending = some ReqKind.unmount)

theorem reach_cI : Reachable Pex cI :=
  Reachable.step _ reach_cH trivial

theorem reach_cJ : Reachable Pex cJ :=
  Reachable.step _ reach_cI (by decide : cI.defer_mount = true)

/-- C10: in every reachable configuration, `mount_error` and
`mounted_storage` are never both set: a recorded error implies the
delegate is absent, and a live delegate implies no pending error — so
`MountWait`'s early return when already mounted can never skip over a
pending error. -/
theorem error_delegate_exclusive (P : Params) (c : Config)
    (h : Reachable P c) :
    (c.st.mount_error.isSome = true → c.st.mounted_storage = none) ∧
    (c.st.mounted_storage.isSome = true → c.st.mount_error = none) := by
  have hi := inv_reachable P c h
  refine ⟨hi.err_unmounted, ?_⟩
  intro hm
  cases he : c.st.mount_error with
  | none => rfl
  | some e =>
    rw [hi.err_unmounted (by rw [he]; rfl)] at hm
    simp at hm

theorem error_delegate_exclusive_witness :
    cF.st.mount_error.isSome = true ∧ cF.st.mounted_storage = none :=
  ⟨by decide, (error_delegate_exclusive Pex cF reach_cF).1 (by decide)⟩

/-- C3 is false as stated: the configuration `cE` is reachable, its
lifecycle state is `UnmountPending` (not `Mounted`), and it still
holds a live Delegate Storage Handle — between scheduling the deferred
unmount and the unmount reply, the delegate survives outside
`Mounted`. -/
theorem delegate_outside_mounted_counterexample :
    Reachable Pex cE ∧ lifecycle cE = LState.UnmountPending ∧
    lifecycle cE ≠ LState.Mounted ∧ cE.st.mounted_storage.isSome = true :=
  ⟨reach_cE, by decide, by decide, by decide⟩

/-- C3 (amended): in every reachable configuration the Delegate
Storage Handle exists if and only if the lifecycle state is `Mounted`
or `UnmountPending`; outside those two states no live delegate is ever
held. -/
theorem delegate_iff_mounted_or_unmount_pending (P : Params) (c : Config)
    (h : Reachable P c) :
    c.st.mounted_storage.isSome = true ↔
      (lifecycle c = LState.Mounted ∨ lifecycle c = LState.UnmountPending) := by
  have hi := inv_reachable P c h
  constructor
  · intro hm
    cases hu : unmountInProgress c with
    | true => right; simp [lifecycle, hu]
    | false => left; simp [lifecycle, hu, hm]
  · intro hcase
    cases hu : unmountInProgress c with
    | true =>
      have hor : c.defer_unmount = true ∨ c.pending = some ReqKind.unmount := by
        simpa [unmountInProgress, Bool.or_eq_true, decide_eq_true_eq] using hu
      rcases hor with hd | hp
      · exact (hi.defer_unmount_inv hd).1
      · exact (hi.pending_unmount_inv hp).1
    | false =>
      by_cases hm : c.st.mounted_storage.isSome = true
      · exact hm
      · exfalso
        rcases hcase with hc | hc <;> simp [lifecycle, hu, hm] at hc <;>
          split at hc <;> simp_all

theorem delegate_iff_mounted_or_unmount_pending_witness :
    lifecycle cD = LState.Mounted ∨ lifecycle cD = LState.UnmountPending :=
  (delegate_iff_mounted_or_unmount_pending Pex cD reach_cD).mp (by decide)

/-- C1: `GetInfo` and `OpenDirectory` first run the blocking
`MountWait`; at the configuration where it returns, a recorded mount
error propagates unchanged to the caller (and the delegate, being
absent, is never touched), while a live delegate receives the call
verbatim and its result is returned unchanged. -/
theorem get_info_open_directory_forward (P : Params) (c : Config)
    (h : Reachable P c) (uri : String) (follow : Bool) :
    (∀ e, c.st.mount_error = some e →
        c.st.mounted_storage = none ∧
        GetInfo c uri follow = Except.error e ∧
        OpenDirectory c uri = Except.error e) ∧
    (∀ d, c.st.mounted_storage = some d →
        GetInfo c uri follow = d.getInfo uri follow ∧
        OpenDirectory c uri = d.openDirectory uri) := by
  have hi := inv_reachable P c h
  constructor
  · intro e he
    have hm : c.st.mounted_storage = none :=
      hi.err_unmounted (by rw [he]; rfl)
    refine ⟨hm, ?_, ?_⟩ <;>
      simp [GetInfo, OpenDirectory, mountWaitReturn, hm, he]
  · intro d hd
    constructor <;>
      simp [GetInfo, OpenDirectory, mountWaitReturn, hd]

theorem get_info_open_directory_forward_witness :
    GetInfo cD "x" true = (exLocal "/mnt").getInfo "x" true ∧
    OpenDirectory cD "x" = (exLocal "/mnt").openDirectory "x" :=
  (get_info_open_directory_forward Pex cD reach_cD "x" true).2
    (exLocal "/mnt") rfl

/-- C7: `MapFS` never raises — its result type has no error channel:
when `MountWait` raises, the error is caught and a null path returned;
once mounted, the delegate's `MapFS` result for the same input is
returned unchanged. -/
theorem map_fs_never_raises (P : Params) (c : Config)
    (h : Reachable P c) (uri : String) :
    (∀ e, c.st.mount_error = some e → MapFS c uri = none) ∧
    (∀ d, c.st.mounted_storage = some d → MapFS c uri = d.mapFS uri) := by
  have hi := inv_reachable P c h
  constructor
  · intro e he
    have hm : c.st.mounted_storage = none :=
      hi.err_unmounted (by rw [he]; rfl)
    simp [MapFS, mountWaitReturn, hm, he]
  · intro d hd
    simp [MapFS, mountWaitReturn, hd]

theorem map_fs_never_raises_witness :
    (MapFS cF "x" = none) ∧ (MapFS cD "x" = (exLocal "/mnt").mapFS "x") :=
  ⟨(map_fs_never_raises Pex cF reach_cF "x").1 (Err.dbusError "fail") rfl,
   (map_fs_never_raises Pex cD reach_cD "x").2 (exLocal "/mnt") rfl⟩

/-- C8: when mounting fails, `MapUTF8` does not propagate the error
and cannot touch the delegate (none exists): on the empty relative
path it returns the base URI itself, on any non-empty relative path it
returns the join of the base URI with that path. -/
theorem map_utf8_fallback (build : String → String → String)
    (base_uri : String) (P : Params) (c : Config) (h : Reachable P c)
    (e : Err) (he : c.st.mount_error = some e) :
    c.st.mounted_storage = none ∧
    MapUTF8 build base_uri c "" = base_uri ∧
    (∀ uri, uri ≠ "" → MapUTF8 build base_uri c uri = build base_uri uri) := by
  have hi := inv_reachable P c h
  have hm : c.st.mounted_storage = none :=
    hi.err_unmounted (by rw [he]; rfl)
  refine ⟨hm, ?_, ?_⟩
  · simp [MapUTF8, mountWaitReturn, hm, he]
  · intro uri hu
    simp [MapUTF8, mountWaitReturn, hm, he, hu]

theorem map_utf8_fallback_witness :
    MapUTF8 (fun a b => a ++ "/" ++ b) "udisks://abc" cF "" = "udisks://abc" ∧
    MapUTF8 (fun a b => a ++ "/" ++ b) "udisks://abc" cF "sub/f.mp3" =
      "udisks://abc" ++ "/" ++ "sub/f.mp3" :=
  ⟨(map_utf8_fallback (fun a b => a ++ "/" ++ b) "udisks://abc" Pex cF
      reach_cF (Err.dbusError "fail") rfl).2.1,
   (map_utf8_fallback (fun a b => a ++ "/" ++ b) "udisks://abc" Pex cF
      reach_cF (Err.dbusError "fail") rfl).2.2 "sub/f.mp3" (by decide)⟩

/-- C4: whatever the unmount reply says, `OnUnmountNotify` destroys the
Delegate Storage Handle unconditionally and the lifecycle state
returns to `Idle`; `mount_error` is cleared on success and set exactly
on failure, all waiters are woken (the wait condition
`mounted_storage` is gone), and the caller blocked in `UnmountWait`
re-raises the recorded error on failure. -/
theorem unmount_reply_unconditional_reset (P : Params) (c : Config)
    (h : Reachable P c) (hp : c.pending = some ReqKind.unmount) :
    (∀ r, (applyEvent P c (Event.unmountReply r)).st.mounted_storage = none ∧
        lifecycle (applyEvent P c (Event.unmountReply r)) = LState.Idle) ∧
    ((applyEvent P c (Event.unmountReply none)).st.mount_error = none ∧
     unmountWaitReturn (applyEvent P c (Event.unmountReply none)) =
       Except.ok ()) ∧
    (∀ e, (applyEvent P c (Event.unmountReply (some e))).st.mount_error =
        some e ∧
      unmountWaitReturn (applyEvent P c (Event.unmountReply (some e))) =
        Except.error e) := by
  have hi := inv_reachable P c h
  obtain ⟨hm, hw, hdm, hdu⟩ := hi.pending_unmount_inv hp
  refine ⟨?_, ?_, ?_⟩
  · intro r
    cases r <;>
      simp [applyEvent, OnUnmountNotify, lifecycle, unmountInProgress,
            hdu, hw]
  · simp [applyEvent, OnUnmountNotify, unmountWaitReturn]
  · intro e
    simp [applyEvent, OnUnmountNotify, unmountWaitReturn]

theorem unmount_reply_unconditional_reset_witness :
    (applyEvent Pex cG
        (Event.unmountReply (some (Err.dbusError "busy")))).st.mounted_storage =
      none ∧
    lifecycle (applyEvent Pex cG
        (Event.unmountReply (some (Err.dbusError "busy")))) = LState.Idle ∧
    (applyEvent Pex cG
        (Event.unmountReply (some (Err.dbusError "busy")))).st.mount_error =
      some (Err.dbusError "busy") ∧
    unmountWaitReturn (applyEvent Pex cG
        (Event.unmountReply (some (Err.dbusError "busy")))) =
      Except.error (Err.dbusError "busy") :=
  ⟨((unmount_reply_unconditional_reset Pex cG reach_cG
      (by decide : cG.pending = some ReqKind.unmount)).1
        (some (Err.dbusError "busy"))).1,
   ((unmount_reply_unconditional_reset Pex cG reach_cG
      (by decide : cG.pending = some ReqKind.unmount)).1
        (some (Err.dbusError "busy"))).2,
   ((unmount_reply_unconditional_reset Pex cG reach_cG
      (by decide : cG.pending = some ReqKind.unmount)).2.2
        (Err.dbusError "busy")).1,
   ((unmount_reply_unconditional_reset Pex cG reach_cG
      (by decide : cG.pending = some ReqKind.unmount)).2.2
        (Err.dbusError "busy")).2⟩

theorem list_scan_no_match (id : String) :
    ∀ objs : List UObject, (∀ o ∈ objs, o.oid ≠ id) →
      listScan id "" objs = "" := by
  intro objs
  induction objs with
  | nil => intro _; rfl
  | cons o os ih =>
    intro h
    have ho : o.oid ≠ id := h o (by simp)
    have h' : ∀ o2 ∈ os, o2.oid ≠ id := fun o2 ho2 => h o2 (by simp [ho2])
    unfold listScan at ih ⊢
    simp only [List.foldl_cons, if_neg ho]
    exact ih h'

/-- C5: with an enumeration in flight, a reply without any object
matching the Volume Reference records the "no such object" error, and
a failed enumeration records its own error; either way the
mount-requested flag is cleared, the state returns to `Idle`, all
waiters are woken, and every thread blocked in `MountWait` re-raises
that very error. -/
theorem list_reply_no_match_error (P : Params) (c : Config)
    (h : Reachable P c) (hp : c.pending = some ReqKind.list) :
    (∀ objs sendOk, (∀ o ∈ objs, o.oid ≠ P.id) →
        (applyEvent P c (Event.listReply (Except.ok objs) sendOk)).st.mount_error =
          some (Err.noSuchObject P.id) ∧
        (applyEvent P c (Event.listReply (Except.ok objs) sendOk)).st.want_mount =
          false ∧
        lifecycle (applyEvent P c (Event.listReply (Except.ok objs) sendOk)) =
          LState.Idle ∧
        mountWaitReturn (applyEvent P c (Event.listReply (Except.ok objs) sendOk)) =
          Except.error (Err.noSuchObject P.id)) ∧
    (∀ e0 sendOk,
        (applyEvent P c (Event.listReply (Except.error e0) sendOk)).st.mount_error =
          some e0 ∧
        (applyEvent P c (Event.listReply (Except.error e0) sendOk)).st.want_mount =
          false ∧
        lifecycle (applyEvent P c (Event.listReply (Except.error e0) sendOk)) =
          LState.Idle ∧
        mountWaitReturn (applyEvent P c (Event.listReply (Except.error e0) sendOk)) =
          Except.error e0) := by
  have hi := inv_reachable P c h
  obtain ⟨hw, hm, hdb, hdm, hdu⟩ := hi.pending_list_inv hp
  constructor
  · intro objs sendOk hno
    have hscan : listScan P.id c.st.dbus_path objs = "" := by
      rw [hdb]; exact list_scan_no_match P.id objs hno
    refine ⟨?_, ?_, ?_, ?_⟩ <;>
      simp [applyEvent, OnListReply, hscan, mountAttemptFail, lifecycle,
            unmountInProgress, mountWaitReturn, hdu, hm]
  · intro e0 sendOk
    refine ⟨?_, ?_, ?_, ?_⟩ <;>
      simp [applyEvent, OnListReply, mountAttemptFail, lifecycle,
            unmountInProgress, mountWaitReturn, hdu, hm]

theorem list_reply_no_match_error_witness :
    (applyEvent Pex cB
        (Event.listReply (Except.ok [{ oid := "zzz", path := "/other" }])
          true)).st.mount_error = some (Err.noSuchObject "abc") ∧
    lifecycle (applyEvent Pex cB
        (Event.listReply (Except.ok [{ oid := "zzz", path := "/other" }])
          true)) = LState.Idle ∧
    mountWaitReturn (applyEvent Pex cB
        (Event.listReply (Except.ok [{ oid := "zzz", path := "/other" }])
          true)) = Except.error (Err.noSuchObject "abc") :=
  ⟨((list_reply_no_match_error Pex cB reach_cB
      (by decide : cB.pending = some ReqKind.list)).1
        [{ oid := "zzz", path := "/other" }] true (by decide)).1,
   ((list_reply_no_match_error Pex cB reach_cB
      (by decide : cB.pending = some ReqKind.list)).1
        [{ oid := "zzz", path := "/other" }] true (by decide)).2.2.1,
   ((list_reply_no_match_error Pex cB reach_cB
      (by decide : cB.pending = some ReqKind.list)).1
        [{ oid := "zzz", path := "/other" }] true (by decide)).2.2.2⟩

/-- C6: the Resolved Object Path is resolved at most once: in any
reachable configuration with a non-empty `dbus_path`, no enabled event
changes it (an enumeration reply would require `dbus_path` to be
empty); and a deferred mount that finds the cached path skips the
enumeration entirely — the only request it sends is a fresh "Mount"
for the cached path with an empty options argument. -/
theorem dbus_path_cached_for_lifetime (P : Params) (c : Config)
    (h : Reachable P c) :
    (c.st.dbus_path ≠ "" → ∀ e, enabled c e →
        (applyEvent P c e).st.dbus_path = c.st.dbus_path) ∧
    (c.defer_mount = true → c.st.dbus_path ≠ "" →
        applyEvent P c (Event.runDeferMount true) =
          { c with defer_mount := false, pending := some ReqKind.mount,
                   log := c.log ++ [Request.mount c.st.dbus_path []] }) := by
  have hi := inv_reachable P c h
  constructor
  · intro hdb e he
    cases e with
    | mountWaitEnter =>
      simp only [applyEvent]
      split
      · rfl
      · split
        · rfl
        · rfl
    | runDeferMount sendOk =>
      cases sendOk <;>
        simp [applyEvent, mountAttemptFail, deferredMountSend]
    | listReply r sendOk =>
      exact absurd (hi.pending_list_inv he).2.2.1 hdb
    | mountReply r =>
      cases r <;> simp [applyEvent, OnMountNotify, mountAttemptFail]
    | unmountWaitEnter =>
      simp only [applyEvent]
      split
      · rfl
      · rfl
    | runDeferUnmount sendOk =>
      cases sendOk <;> simp [applyEvent]
    | unmountReply r =>
      cases r <;> simp [applyEvent, OnUnmountNotify]
  · intro hdm hdb
    simp [applyEvent, deferredMountSend, hdb, reqKind]

theorem dbus_path_cached_for_lifetime_witness :
    (applyEvent Pex cI (Event.runDeferMount true) =
      { cI with defer_mount := false, pending := some ReqKind.mount,
                log := cI.log ++ [Request.mount cI.st.dbus_path []] }) ∧
    cJ.log = [Request.getManagedObjects, Request.mount "/obj" [],
              Request.unmount "/obj" [], Request.mount "/obj" []] :=
  ⟨(dbus_path_cached_for_lifetime Pex cI reach_cI).2 (by decide) (by decide),
   by decide⟩

/-- C2: from a reachable `Idle` configuration, the first `MountWait`
entry flips the mount-requested flag and schedules the deferred mount
while sending no IPC itself; every further concurrent entry is a
strict no-op, so the batch starts exactly one mount attempt.  The
single event that completes the attempt (clears `want_mount`) wakes
every waiter with one common outcome: either a delegate is installed
with no error (all callers return success) or one error is recorded
(all callers re-raise that same error). -/
theorem mount_wait_single_attempt_common_outcome (P : Params) (c : Config)
    (h : Reachable P c) (hIdle : lifecycle c = LState.Idle) :
    ((applyEvent P c Event.mountWaitEnter).st.want_mount = true ∧
     (applyEvent P c Event.mountWaitEnter).defer_mount = true ∧
     (applyEvent P c Event.mountWaitEnter).log = c.log ∧
     (∀ n, 1 ≤ n → iterEnter P c n = applyEvent P c Event.mountWaitEnter)) ∧
    (∀ c1, Reachable P c1 → c1.st.want_mount = true →
        ∀ e, enabled c1 e → (applyEvent P c1 e).st.want_mount = false →
          ((applyEvent P c1 e).st.mount_error = none ∧
           (applyEvent P c1 e).st.mounted_storage.isSome = true ∧
           mountWaitReturn (applyEvent P c1 e) = Except.ok ()) ∨
          (∃ err, (applyEvent P c1 e).st.mount_error = some err ∧
              (applyEvent P c1 e).st.mounted_storage = none ∧
              mountWaitReturn (applyEvent P c1 e) = Except.error err)) := by
  have hum : unmountInProgress c = false := by
    cases hu : unmountInProgress c with
    | false => rfl
    | true => simp [lifecycle, hu] at hIdle
  have hm : c.st.mounted_storage.isSome = false := by
    cases hmo : c.st.mounted_storage.isSome with
    | false => rfl
    | true => simp [lifecycle, hum, hmo] at hIdle
  have hw : c.st.want_mount = false := by
    cases hwo : c.st.want_mount with
    | false => rfl
    | true => simp [lifecycle, hum, hm, hwo] at hIdle
  have hc1 : applyEvent P c Event.mountWaitEnter =
      { c with st := { c.st with want_mount := true }, defer_mount := true } := by
    simp [applyEvent, hm, hw]
  constructor
  · refine ⟨?_, ?_, ?_, ?_⟩
    · rw [hc1]
    · rw [hc1]
    · rw [hc1]
    · have hiter : ∀ m : Nat,
          iterEnter P c (m + 1) = applyEvent P c Event.mountWaitEnter := by
        intro m
        induction m with
        | zero => rfl
        | succ k ih =>
          show applyEvent P (iterEnter P c (k + 1)) Event.mountWaitEnter = _
          rw [ih, hc1]
          simp [applyEvent, hm]
      intro n hn
      cases n with
      | zero => exact absurd hn (by omega)
      | succ m => exact hiter m
  · intro c1 hr1 hw1 e he1 hwa
    have hi1 := inv_reachable P c1 hr1
    cases e with
    | mountWaitEnter =>
      exfalso
      by_cases hm1 : c1.st.mounted_storage.isSome = true
      · simp [applyEvent, hm1, hw1] at hwa
      · simp [applyEvent, hm1, hw1] at hwa
    | runDeferMount sendOk =>
      obtain ⟨hwq, hmq, hpq, hdq⟩ := hi1.defer_mount_inv he1
      cases sendOk with
      | true =>
        exfalso
        simp [applyEvent, hw1] at hwa
      | false =>
        right
        refine ⟨Err.sendFailure, ?_, ?_, ?_⟩ <;>
          simp [applyEvent, mountAttemptFail, mountWaitReturn, hmq]
    | listReply r sendOk =>
      obtain ⟨hwq, hmq, hdbq, hdmq, hduq⟩ := hi1.pending_list_inv he1
      cases r with
      | error e0 =>
        right
        refine ⟨e0, ?_, ?_, ?_⟩ <;>
          simp [applyEvent, OnListReply, mountAttemptFail, mountWaitReturn, hmq]
      | ok objs =>
        by_cases hpath : listScan P.id c1.st.dbus_path objs = ""
        · right
          refine ⟨Err.noSuchObject P.id, ?_, ?_, ?_⟩ <;>
            simp [applyEvent, OnListReply, hpath, mountAttemptFail,
                  mountWaitReturn, hmq]
        · cases sendOk with
          | true =>
            exfalso
            simp [applyEvent, OnListReply, hpath, hw1] at hwa
          | false =>
            right
            refine ⟨Err.sendFailure, ?_, ?_, ?_⟩ <;>
              simp [applyEvent, OnListReply, hpath, mountAttemptFail,
                    mountWaitReturn, hmq]
    | mountReply r =>
      obtain ⟨hwq, hmq, hdbq, hdmq, hduq⟩ := hi1.pending_mount_inv he1
      cases r with
      | err msg =>
        right
        refine ⟨Err.dbusError msg, ?_, ?_, ?_⟩ <;>
          simp [applyEvent, OnMountNotify, mountAttemptFail,
                mountWaitReturn, hmq]
      | other =>
        right
        refine ⟨Err.malformedMountReply, ?_, ?_, ?_⟩ <;>
          simp [applyEvent, OnMountNotify, mountAttemptFail,
                mountWaitReturn, hmq]
      | str p =>
        left
        refine ⟨?_, ?_, ?_⟩ <;>
          simp [applyEvent, OnMountNotify, mountWaitReturn]
    | unmountWaitEnter =>
      exfalso
      by_cases hm1 : c1.st.mounted_storage.isSome = true
      · simp [applyEvent, hm1, hw1] at hwa
      · simp [applyEvent, hm1, hw1] at hwa
    | runDeferUnmount sendOk =>
      exfalso
      have hwq := (hi1.defer_unmount_inv he1).2.1
      rw [hwq] at hw1
      simp at hw1
    | unmountReply r =>
      exfalso
      have hwq := (hi1.pending_unmount_inv he1).2.1
      rw [hwq] at hw1
      simp at hw1

theorem mount_wait_single_attempt_common_outcome_witness :
    iterEnter Pex initConfig 3 = applyEvent Pex initConfig Event.mountWaitEnter ∧
    (((applyEvent Pex cC (Event.mountReply (MountReply.str "/mnt"))).st.mount_error =
        none ∧
      (applyEvent Pex cC
          (Event.mountReply (MountReply.str "/mnt"))).st.mounted_storage.isSome =
        true ∧
      mountWaitReturn (applyEvent Pex cC (Event.mountReply (MountReply.str "/mnt"))) =
        Except.ok ()) ∨
     (∃ err,
        (applyEvent Pex cC (Event.mountReply (MountReply.str "/mnt"))).st.mount_error =
          some err ∧
        (applyEvent Pex cC
            (Event.mountReply (MountReply.str "/mnt"))).st.mounted_storage = none ∧
        mountWaitReturn (applyEvent Pex cC (Event.mountReply (MountReply.str "/mnt"))) =
          Except.error err)) :=
  ⟨(mount_wait_single_attempt_common_outcome Pex initConfig Reachable.init
      (by decide)).1.2.2.2 3 (by omega),
   (mount_wait_single_attempt_common_outcome Pex initConfig Reachable.init
      (by decide)).2 cC reach_cC (by decide)
     (Event.mountReply (MountReply.str "/mnt"))
     (by decide : cC.pending = some ReqKind.mount) (by decide)⟩

theorem take_while_not_slash_all (l : List Char) :
    (∀ ch ∈ l, ch ≠ '/') → l.takeWhile notSlash = l := by
  induction l with
  | nil => intro _; rfl
  | cons a as ih =>
    intro h
    have ha : a ≠ '/' := h a (by simp)
    have h' : ∀ ch ∈ as, ch ≠ '/' := fun ch hc => h ch (by simp [hc])
    rw [List.takeWhile_cons, if_pos (by simp [notSlash, ha]), ih h']

theorem take_while_not_slash_append (l2 : List Char) :
    ∀ l1 : List Char, (∀ ch ∈ l1, ch ≠ '/') →
      (l1 ++ '/' :: l2).takeWhile notSlash = l1 := by
  intro l1
  induction l1 with
  | nil =>
    intro _
    rw [List.nil_append, List.takeWhile_cons, if_neg (by simp [notSlash])]
  | cons a as ih =>
    intro h
    have ha : a ≠ '/' := h a (by simp)
    have h' : ∀ ch ∈ as, ch ≠ '/' := fun ch hc => h ch (by simp [hc])
    rw [List.cons_append, List.takeWhile_cons,
        if_pos (by simp [notSlash, ha]), ih h']

/-- C9 is false in its last clause: the trailing relative path does
change the constructed object, because the full base URI (relative
path included) is stored in it — only the parsed Volume Reference is
unaffected.  Concretely, "udisks://vol/a" and "udisks://vol/b" yield
different objects with the same volume id. -/
theorem create_udisks_storage_uri_counterexample :
    CreateUdisksStorageURI ("udisks://vol/a".toList) ≠
      CreateUdisksStorageURI ("udisks://vol/b".toList) ∧
    (CreateUdisksStorageURI ("udisks://vol/a".toList)).map UdisksStorageSpec.id =
      (CreateUdisksStorageURI ("udisks://vol/b".toList)).map UdisksStorageSpec.id := by
  constructor
  · decide
  · decide

/-- C9 (amended): a base identifier without the "udisks://" scheme
yields no storage object; for `scheme ++ volume-id` (no '/', with or
without a trailing "/relative-path") the stored Volume Reference is
exactly the segment between the prefix and the first '/', and the
trailing relative path never affects that Volume Reference — it is,
however, retained inside the stored base URI, so the constructed
object as a whole does depend on it. -/
theorem create_udisks_storage_uri_parses :
    (∀ s : List Char, s.take 9 ≠ udisksScheme →
        CreateUdisksStorageURI s = none) ∧
    (∀ vid : List Char, (∀ ch ∈ vid, ch ≠ '/') →
        CreateUdisksStorageURI (udisksScheme ++ vid) =
          some { base_uri := udisksScheme ++ vid, id := vid }) ∧
    (∀ vid rel : List Char, (∀ ch ∈ vid, ch ≠ '/') →
        CreateUdisksStorageURI (udisksScheme ++ (vid ++ '/' :: rel)) =
          some { base_uri := udisksScheme ++ (vid ++ '/' :: rel), id := vid }) ∧
    (∀ vid rel rel2 : List Char, (∀ ch ∈ vid, ch ≠ '/') →
        (CreateUdisksStorageURI (udisksScheme ++ (vid ++ '/' :: rel))).map
            UdisksStorageSpec.id =
          (CreateUdisksStorageURI (udisksScheme ++ (vid ++ '/' :: rel2))).map
            UdisksStorageSpec.id) := by
  have hlen : udisksScheme.length = 9 := rfl
  refine ⟨?_, ?_, ?_, ?_⟩
  · intro s hs
    rw [CreateUdisksStorageURI, if_neg hs]
  · intro vid hvid
    rw [CreateUdisksStorageURI, if_pos (List.take_left' hlen)]
    simp only [List.drop_left' hlen]
    rw [take_while_not_slash_all vid hvid]
  · intro vid rel hvid
    rw [CreateUdisksStorageURI, if_pos (List.take_left' hlen)]
    simp only [List.drop_left' hlen]
    rw [take_while_not_slash_append rel vid hvid]
  · intro vid rel rel2 hvid
    rw [CreateUdisksStorageURI, if_pos (List.take_left' hlen),
        CreateUdisksStorageURI, if_pos (List.take_left' hlen)]
    simp only [List.drop_left' hlen, Option.map_some]
    rw [take_while_not_slash_append rel vid hvid,
        take_while_not_slash_append rel2 vid hvid]
    simp

theorem create_udisks_storage_uri_parses_witness :
    CreateUdisksStorageURI ("nfs://host/share".toList) = none ∧
    CreateUdisksStorageURI ("udisks://abc".toList) =
      some { base_uri := "udisks://abc".toList, id := "abc".toList } ∧
    CreateUdisksStorageURI ("udisks://abc/sub/dir".toList) =
      some { base_uri := "udisks://abc/sub/dir".toList, id := "abc".toList } :=
  ⟨(create_udisks_storage_uri_parses).1 "nfs://host/share".toList (by decide),
   by
    have := (create_udisks_storage_uri_parses).2.1 "abc".toList (by decide)
    simpa using this,
   by
    have := (create_udisks_storage_uri_parses).2.2.1 "abc".toList
      "sub/dir".toList (by decide)
    simpa using this⟩

end Udisks
